import Mathlib

/-!
# Verification of the goal/step orchestration engine

A shallow embedding of the core orchestration engine of the macOS
accessibility-automation example application:

* `examples/models/goal.py` — the `Goal` / `Step` data model;
* `examples/states/high_level_planner.py` — plan validation
  (`validate_plan`, `_check_dependencies`);
* `examples/states/goal_state_machine.py` — the plan-lifecycle state
  machine (`GoalStateMachine.handle_event` and its handlers);
* `examples/states/step_executor.py` — the step runner
  (`StepExecutor.execute_step` and its action handlers);
* `examples/states/goal_executor.py` — the goal execution loop
  (`GoalExecutor.execute_goals` / `execute_current_goal` /
  `validate_step_result` / `plan_goal_execution`).

Modelling conventions:

* External collaborators (the LLM service, the accessibility layer, the
  observer callbacks) are modelled as oracle functions supplied as
  arguments; Python exceptions raised by them are modelled as
  `Except String` results.
* Wall-clock timestamps (`started_at` / `completed_at`) and debug/log
  output (`save_debug_info`, `print`) are pure side channels with no
  effect on control flow and are not modelled.
* Mutation of Python objects is modelled by explicit state passing; the
  observable sequence of status assignments and observer notifications
  is recorded in an explicit event trace.
-/

/-- `StepStatus` from `examples/models/goal.py`. -/
inductive StepStatus where
  | pending
  | in_progress
  | completed
  | failed
  | validation_failed
deriving DecidableEq, Repr

/-- `GoalStatus` from `examples/models/goal.py`. -/
inductive GoalStatus where
  | pending
  | in_progress
  | completed
  | failed
  | needs_review
deriving DecidableEq, Repr

/-- A Python parameter value as stored in a step's parameter mapping:
the engine only ever inspects integer-or-string valued entries. -/
inductive PVal where
  | i (n : Int)
  | s (st : String)
deriving DecidableEq, Repr

/-- The parameter mapping of a step (`step.parameters` in
`examples/models/goal.py`); keys the step runner consults, each
optional because Python uses `dict.get`. -/
structure StepParams where
  element_id : Option PVal := none
  text : Option String := none
  key : Option String := none
  modifiers : List String := []
  distance : Option Int := none
  element_keywords : Option (List String) := none
deriving DecidableEq, Repr

/-- `Step` from `examples/models/goal.py` (timestamps omitted, see the
module docstring). -/
structure StepM where
  description : String
  action : String
  parameters : StepParams
  status : StepStatus := .pending
  validation_criteria : Option String := none
  error_message : Option String := none
  element_keywords : Option (List String) := none
deriving DecidableEq, Repr

/-- `Step.start` from `examples/models/goal.py`. -/
def StepM.start (s : StepM) : StepM :=
  { s with status := .in_progress }

/-- `Step.complete` from `examples/models/goal.py`. -/
def StepM.complete (s : StepM) : StepM :=
  { s with status := .completed }

/-- `Step.fail` from `examples/models/goal.py`. -/
def StepM.fail (s : StepM) (msg : String) : StepM :=
  { s with status := .failed, error_message := some msg }

/-- `Step.validation_failed` from `examples/models/goal.py` (defined on
the model but, as proved below, never invoked by the execution loop). -/
def StepM.mark_validation_failed (s : StepM) (msg : String) : StepM :=
  { s with status := .validation_failed, error_message := some msg }

/-- `Goal` from `examples/models/goal.py` (timestamps omitted). -/
structure GoalM where
  id : String
  description : String
  steps : List StepM := []
  status : GoalStatus := .pending
  validation_criteria : Option String := none
  error_message : Option String := none
  dependencies : List String := []
deriving DecidableEq, Repr

/-! ## High-level planner: plan validation

`HighLevelPlanner.validate_plan` and `_check_dependencies` from
`examples/states/high_level_planner.py`.
-/

/-- `goal_dict[dep_id]` lookup: `{g.id: g for g in all_goals}` in the
source.  (The Python dict keeps the last goal for a duplicated id while
`find?` keeps the first; `validate_plan` only reaches the lookup after
having established that ids are pairwise distinct, where both agree.) -/
def lookupGoal (gs : List GoalM) (i : String) : Option GoalM :=
  gs.find? (fun g => g.id == i)

/-- `HighLevelPlanner._check_dependencies`: depth-first traversal with a
per-path visited set (`visited.copy()` per recursive call in the
source).  The Python recursion needs no fuel: along a path the visited
ids are pairwise distinct members of the plan's id set, so the depth is
bounded by the number of goals.  The embedding makes that bound explicit
as a fuel argument; `validate_plan` passes `goals.length + 1`, which by
the same argument is never exhausted. -/
def check_dependencies (all : List GoalM) : Nat → GoalM → List String → Bool
  | 0, _, _ => false
  | fuel + 1, g, visited =>
    if g.id ∈ visited then false
    else
      g.dependencies.all (fun dep =>
        match lookupGoal all dep with
        | none => false
        | some h => check_dependencies all fuel h (g.id :: visited))

/-- `HighLevelPlanner.validate_plan`: reject duplicated goal ids
(`len(goal_ids) != len(set(goal_ids))`), then run the dependency check
from every goal with an empty visited set. -/
def validate_plan (goals : List GoalM) : Bool :=
  if (goals.map GoalM.id).length ≠ (goals.map GoalM.id).dedup.length then false
  else goals.all (fun g => check_dependencies goals (goals.length + 1) g [])

/-! ### The dependency graph -/

/-- The dependency edge relation of a plan: `g` depends on `h`, where
`h` is a goal of the plan whose id occurs in `g.dependencies`. -/
def depEdge (all : List GoalM) (g h : GoalM) : Prop :=
  h ∈ all ∧ h.id ∈ g.dependencies

/-- `IsDepChain all g p`: `p` is a walk in the dependency graph starting
from `g` (each element depends-on the next, beginning at `g`). -/
def IsDepChain (all : List GoalM) : GoalM → List GoalM → Prop
  | _, [] => True
  | g, h :: t => depEdge all g h ∧ IsDepChain all h t

/-- The dependency graph contains a cycle reachable from some goal of
the plan: a nonempty walk from `g` back to `g`. -/
def HasCycle (all : List GoalM) : Prop :=
  ∃ g, g ∈ all ∧ ∃ p : List GoalM, p ≠ [] ∧ IsDepChain all g p ∧ p.getLast? = some g

theorem lookupGoal_eq_of_nodup {gs : List GoalM} (hnd : (gs.map GoalM.id).Nodup)
    {h : GoalM} (hm : h ∈ gs) : lookupGoal gs h.id = some h := by
  induction gs with
  | nil => cases hm
  | cons a rest ih =>
    simp only [List.map_cons, List.nodup_cons] at hnd
    rcases List.mem_cons.mp hm with rfl | hm'
    · simp [lookupGoal, List.find?]
    · have hne : a.id ≠ h.id := by
        intro he
        exact hnd.1 (he ▸ List.mem_map_of_mem GoalM.id hm')
      simp only [lookupGoal, List.find?]
      rw [show (a.id == h.id) = false from beq_eq_false_iff_ne.mpr hne]
      exact ih hnd.2 hm'

theorem lookupGoal_mem {gs : List GoalM} {i : String} {h : GoalM}
    (hf : lookupGoal gs i = some h) : h ∈ gs ∧ h.id = i := by
  refine ⟨List.mem_of_find?_eq_some hf, ?_⟩
  have := List.find?_some hf
  exact eq_of_beq this

/-- Soundness of a passing dependency check against the fuel: any walk
starting at a checked goal is strictly shorter than the fuel. -/
theorem chain_length_lt_fuel {all : List GoalM}
    (hnd : (all.map GoalM.id).Nodup) :
    ∀ (p : List GoalM) (g : GoalM) (visited : List String) (fuel : Nat),
      check_dependencies all fuel g visited = true →
      IsDepChain all g p → p.length < fuel := by
  intro p
  induction p with
  | nil =>
    intro g visited fuel hchk _
    cases fuel with
    | zero => simp [check_dependencies] at hchk
    | succ f => exact Nat.succ_pos f
  | cons h t ih =>
    intro g visited fuel hchk hchain
    cases fuel with
    | zero => simp [check_dependencies] at hchk
    | succ f =>
      obtain ⟨⟨hmem, hdep⟩, htail⟩ := hchain
      simp only [check_dependencies] at hchk
      split at hchk
      · exact absurd hchk (by simp)
      · rw [List.all_eq_true] at hchk
        have := hchk h.id hdep
        rw [lookupGoal_eq_of_nodup hnd hmem] at this
        have hlt := ih h (g.id :: visited) f this htail
        simpa [List.length_cons] using Nat.succ_lt_succ hlt

theorem isDepChain_append {all : List GoalM} :
    ∀ (p : List GoalM) (g m : GoalM) (q : List GoalM),
      IsDepChain all g p → p.getLast? = some m → IsDepChain all m q →
      IsDepChain all g (p ++ q) := by
  intro p
  induction p with
  | nil => intro g m q _ hlast _; simp at hlast
  | cons h t ih =>
    intro g m q hchain hlast hq
    obtain ⟨hedge, htail⟩ := hchain
    cases t with
    | nil =>
      simp only [List.getLast?_singleton, Option.some.injEq] at hlast
      subst hlast
      exact ⟨hedge, hq⟩
    | cons h2 t2 =>
      rw [List.getLast?_cons_cons] at hlast
      exact ⟨hedge, ih h m q htail hlast hq⟩

/-- Iterated concatenation of a cycle with itself. -/
def cycleRepeat (p : List GoalM) : Nat → List GoalM
  | 0 => p
  | n + 1 => p ++ cycleRepeat p n

theorem isDepChain_cycleRepeat {all : List GoalM} {g : GoalM} {p : List GoalM}
    (hchain : IsDepChain all g p) (hlast : p.getLast? = some g) :
    ∀ n, IsDepChain all g (cycleRepeat p n) := by
  intro n
  induction n with
  | zero => exact hchain
  | succ n ihn => exact isDepChain_append p g g (cycleRepeat p n) hchain hlast ihn

theorem cycleRepeat_length (p : List GoalM) : ∀ n, (cycleRepeat p n).length = (n + 1) * p.length := by
  intro n
  induction n with
  | zero => simp [cycleRepeat]
  | succ n ihn => simp [cycleRepeat, ihn, Nat.succ_mul, Nat.add_mul, Nat.add_comm]

theorem validate_plan_nodup {gs : List GoalM} (hv : validate_plan gs = true) :
    (gs.map GoalM.id).Nodup := by
  unfold validate_plan at hv
  split at hv
  · exact absurd hv (by simp)
  · rename_i hlen
    push_neg at hlen
    have hsub : (gs.map GoalM.id).dedup.Sublist (gs.map GoalM.id) := List.dedup_sublist _
    have heq : (gs.map GoalM.id).dedup = gs.map GoalM.id := hsub.eq_of_length hlen.symm
    rw [← heq]
    exact (gs.map GoalM.id).nodup_dedup

theorem validate_plan_checks {gs : List GoalM} (hv : validate_plan gs = true) :
    ∀ g ∈ gs, check_dependencies gs (gs.length + 1) g [] = true := by
  unfold validate_plan at hv
  split at hv
  · exact absurd hv (by simp)
  · exact fun g hg => List.all_eq_true.mp hv g hg

theorem validate_plan_deps_present {gs : List GoalM} (hv : validate_plan gs = true) :
    ∀ g ∈ gs, ∀ d ∈ g.dependencies, ∃ h ∈ gs, h.id = d := by
  intro g hg d hd
  have hchk := validate_plan_checks hv g hg
  simp only [check_dependencies] at hchk
  split at hchk
  · exact absurd hchk (by simp)
  · rw [List.all_eq_true] at hchk
    have := hchk d hd
    cases hfind : lookupGoal gs d with
    | none => rw [hfind] at this; exact absurd this (by simp)
    | some h =>
      obtain ⟨hmem, hid⟩ := lookupGoal_mem hfind
      exact ⟨h, hmem, hid⟩

theorem validate_plan_acyclic {gs : List GoalM} (hv : validate_plan gs = true) :
    ¬ HasCycle gs := by
  rintro ⟨g, hg, p, hne, hchain, hlast⟩
  have hnd := validate_plan_nodup hv
  have hchk := validate_plan_checks hv g hg
  have hbig := isDepChain_cycleRepeat hchain hlast (gs.length + 1)
  have hlt := chain_length_lt_fuel hnd (cycleRepeat p (gs.length + 1)) g [] (gs.length + 1) hchk hbig
  rw [cycleRepeat_length] at hlt
  have hp1 : 1 ≤ p.length := List.length_pos.mpr hne
  have : gs.length + 1 + 1 ≤ (gs.length + 1 + 1) * p.length := Nat.le_mul_of_pos_right _ hp1
  omega

/-! ## Plan lifecycle state machine

`GoalStateMachine` from `examples/states/goal_state_machine.py`.
-/

/-- `GoalState` from `examples/states/goal_state_machine.py`. -/
inductive GoalState where
  | creating_goals
  | reviewing_goals
  | awaiting_feedback
  | confirming_rejection
  | goals_accepted
  | failed
deriving DecidableEq, Repr

/-- `ReviewChoice` from `examples/states/goal_state_machine.py`. -/
inductive ReviewChoice where
  | accept
  | modify
  | reject
deriving DecidableEq, Repr

/-- `ConfirmChoice` from `examples/states/goal_state_machine.py`. -/
inductive ConfirmChoice where
  | yes
  | no
deriving DecidableEq, Repr

/-- `GoalEvent` from `examples/states/goal_state_machine.py`. -/
inductive GoalEvent where
  | plan_created
  | review_choice_made
  | feedback_provided
  | confirm_rejection
  | error_occurred
  | goals_completed
  | goals_failed
deriving DecidableEq, Repr

/-- `GoalStateResult` from `examples/states/goal_state_machine.py`. -/
structure GoalStateResult where
  new_state : GoalState
  goals : List GoalM
  error : Option String := none
  needs_input : Bool := false
  input_prompt : Option String := none
deriving DecidableEq, Repr

/-- The mutable fields of `GoalStateMachine` (`self.state`, `self.goals`,
`self.error`, `self.feedback_history`, `self.original_request`). -/
structure Machine where
  state : GoalState
  goals : List GoalM
  error : Option String
  feedback_history : List String
  original_request : Option String
deriving DecidableEq, Repr

/-- The machine as built by `GoalStateMachine.__init__`. -/
def initMachine : Machine :=
  { state := .creating_goals, goals := [], error := none,
    feedback_history := [], original_request := none }

/-- The `**kwargs` accepted by `handle_event`; each key optional, since
the caller may omit it (`kwargs['k']` raises `KeyError`, `kwargs.get`
does not). -/
structure EventArgs where
  user_request : Option String := none
  choice : Option ReviewChoice := none
  feedback : Option String := none
  confirm : Option ConfirmChoice := none
  error : Option String := none
deriving DecidableEq, Repr

/-- The state machine's external collaborators for one `handle_event`
call: `get_compact_excel_yaml` (the application-state snapshot, which
may raise) and `HighLevelPlanner.generate_plan` (the LLM planning call,
a function of the request and the snapshot, which may raise a parse or
missing-field `ValueError`). -/
structure SMOracle where
  excel : Except String String
  gen : String → String → Except String (List GoalM)

/-- `kwargs['k']`: a missing required key raises `KeyError('k')`. -/
def getKw {α : Type} (v : Option α) (key : String) : Except String α :=
  match v with
  | some x => .ok x
  | none => .error ("'" ++ key ++ "'")

/-- `GoalStateMachine._handle_error`: transition to FAILED and store the
error message. -/
def handle_error (m : Machine) (error_msg : String) : Machine × GoalStateResult :=
  let m' := { m with state := .failed, error := some error_msg }
  (m', { new_state := .failed, goals := m'.goals, error := some error_msg })

/-- `GoalStateMachine._handle_plan_creation`: capture the application
state, generate a plan, store it, validate it, and transition to
REVIEWING_GOALS; any exception or a failed validation is routed to
`_handle_error`.  Note the generated goals are stored into `self.goals`
before validation runs. -/
def handle_plan_creation (o : SMOracle) (m : Machine) (user_request : String) :
    Machine × GoalStateResult :=
  match o.excel with
  | .error e => handle_error m ("Error generating plan: " ++ e)
  | .ok excel_state =>
    match o.gen user_request excel_state with
    | .error e => handle_error m ("Error generating plan: " ++ e)
    | .ok goals =>
      let m' := { m with goals := goals }
      if validate_plan goals then
        let m'' := { m' with state := .reviewing_goals }
        (m'', { new_state := .reviewing_goals, goals := goals })
      else
        handle_error m' "Generated plan has invalid structure"

/-- `GoalStateMachine._handle_review_choice`. -/
def handle_review_choice (m : Machine) (choice : Option ReviewChoice) :
    Machine × GoalStateResult :=
  match choice with
  | none => (m, { new_state := m.state, goals := m.goals, needs_input := true })
  | some .accept =>
    let m' := { m with state := .goals_accepted }
    (m', { new_state := .goals_accepted, goals := m'.goals, needs_input := false })
  | some .modify =>
    let m' := { m with state := .awaiting_feedback }
    (m', { new_state := .awaiting_feedback, goals := m'.goals, needs_input := true })
  | some .reject =>
    let m' := { m with state := .confirming_rejection }
    (m', { new_state := .confirming_rejection, goals := m'.goals, needs_input := true })

/-- `GoalStateMachine._handle_rejection_confirmation`. -/
def handle_rejection_confirmation (m : Machine) (confirm : Option ConfirmChoice) :
    Machine × GoalStateResult :=
  match confirm with
  | none => (m, { new_state := m.state, goals := m.goals, needs_input := true })
  | some .yes =>
    let m' := { m with feedback_history := [], original_request := none,
                       state := .creating_goals }
    (m', { new_state := .creating_goals, goals := [], needs_input := true })
  | some .no =>
    let m' := { m with state := .reviewing_goals }
    (m', { new_state := .reviewing_goals, goals := m'.goals, needs_input := true })

/-- The f-string loop of `_handle_plan_feedback`:
`for idx, fb in enumerate(self.feedback_history, 1):
   enhanced_request += f"\nFeedback {idx}: {fb}"`. -/
def feedbackFold (acc : String) (idx : Nat) : List String → String
  | [] => acc
  | fb :: rest =>
    feedbackFold (acc ++ ("\nFeedback " ++ toString idx ++ ": " ++ fb)) (idx + 1) rest

/-- `GoalStateMachine._handle_plan_feedback`: append the feedback to the
history, capture the application state (the result is unused but a
raised exception is caught here), rebuild the enhanced request from the
original request plus the numbered feedback history, and re-enter the
plan-creation path. -/
def handle_plan_feedback (o : SMOracle) (m : Machine) (feedback : String) :
    Machine × GoalStateResult :=
  let m' := { m with feedback_history := m.feedback_history ++ [feedback] }
  match o.excel with
  | .error e => handle_error m' e
  | .ok _ =>
    let enhanced_request := feedbackFold (m'.original_request.getD "") 1 m'.feedback_history
    handle_plan_creation o m' enhanced_request

/-- The body of `GoalStateMachine.handle_event`'s `try` block: the
`match (self.state, event)` dispatch.  A `KeyError` from a required
kwarg is the only exception that can escape the individual handlers
(each handler that can fail catches its own exceptions), and it occurs
before any field of the machine is mutated. -/
def handle_event_core (m : Machine) (event : GoalEvent) (kw : EventArgs) (o : SMOracle) :
    Except String (Machine × GoalStateResult) :=
  match m.state, event with
  | .creating_goals, .plan_created =>
    match getKw kw.user_request "user_request" with
    | .error e => .error e
    | .ok req =>
      let m' := { m with original_request := some req, feedback_history := [] }
      .ok (handle_plan_creation o m' req)
  | .reviewing_goals, .review_choice_made => .ok (handle_review_choice m kw.choice)
  | .awaiting_feedback, .feedback_provided =>
    match getKw kw.feedback "feedback" with
    | .error e => .error e
    | .ok fb => .ok (handle_plan_feedback o m fb)
  | .confirming_rejection, .confirm_rejection =>
    .ok (handle_rejection_confirmation m kw.confirm)
  | .goals_accepted, .goals_completed =>
    let m' := { m with state := .creating_goals }
    .ok (m', { new_state := .creating_goals, goals := [] })
  | .goals_accepted, .goals_failed =>
    let m' := { m with state := .creating_goals }
    .ok (m', { new_state := .creating_goals, goals := [] })
  | _, .error_occurred => .ok (handle_error m (kw.error.getD "Unknown error occurred"))
  | s, e => .ok (handle_error m ("Invalid event " ++ reprStr e ++ " for state " ++ reprStr s))

/-- `GoalStateMachine.handle_event`: the dispatch wrapped in
`try ... except Exception as e: return self._handle_error(str(e))`. -/
def handle_event (m : Machine) (event : GoalEvent) (kw : EventArgs) (o : SMOracle) :
    Machine × GoalStateResult :=
  match handle_event_core m event kw o with
  | .ok r => r
  | .error e => handle_error m e

/-! ### State machine theorems -/

/-- The plan-validity invariant: in every state that holds a plan under
review (REVIEWING_GOALS, AWAITING_FEEDBACK, CONFIRMING_REJECTION), the
stored goal list passed `validate_plan`. -/
def SMInv (m : Machine) : Prop :=
  (m.state = .reviewing_goals ∨ m.state = .awaiting_feedback ∨
   m.state = .confirming_rejection) → validate_plan m.goals = true

theorem smInv_handle_error (m : Machine) (e : String) : SMInv (handle_error m e).1 := by
  intro h
  simp [handle_error] at h

instance decidableSMInv (m : Machine) : Decidable (SMInv m) := by
  unfold SMInv
  infer_instance

theorem smInv_handle_plan_creation (o : SMOracle) (m : Machine) (req : String) :
    SMInv (handle_plan_creation o m req).1 := by
  cases hexc : o.excel with
  | error e =>
    simp only [handle_plan_creation, hexc]
    exact smInv_handle_error _ _
  | ok st =>
    cases hgen : o.gen req st with
    | error e =>
      simp only [handle_plan_creation, hexc, hgen]
      exact smInv_handle_error _ _
    | ok gs =>
      by_cases hv : validate_plan gs = true
      · simp only [handle_plan_creation, hexc, hgen, hv, if_true]
        intro _
        exact hv
      · simp only [handle_plan_creation, hexc, hgen]
        rw [if_neg hv]
        exact smInv_handle_error _ _

theorem smInv_handle_plan_feedback (o : SMOracle) (m : Machine) (fb : String) :
    SMInv (handle_plan_feedback o m fb).1 := by
  unfold handle_plan_feedback
  cases o.excel with
  | error e => exact smInv_handle_error _ _
  | ok st => exact smInv_handle_plan_creation _ _ _

theorem smInv_preserved (m : Machine) (ev : GoalEvent) (kw : EventArgs) (o : SMOracle)
    (hInv : SMInv m) : SMInv (handle_event m ev kw o).1 := by
  obtain ⟨st, gs, err, fh, orq⟩ := m
  cases st <;> cases ev <;>
    simp only [handle_event, handle_event_core] <;>
    first
      | exact smInv_handle_error _ _
      | skip
  case creating_goals.plan_created =>
    cases kw.user_request with
    | none => exact smInv_handle_error _ _
    | some req => exact smInv_handle_plan_creation _ _ _
  case reviewing_goals.review_choice_made =>
    cases kw.choice with
    | none => exact hInv
    | some c =>
      cases c
      · intro h; simp [handle_review_choice] at h
      · intro _; exact hInv (Or.inl rfl)
      · intro _; exact hInv (Or.inl rfl)
  case awaiting_feedback.feedback_provided =>
    cases kw.feedback with
    | none => exact smInv_handle_error _ _
    | some fb => exact smInv_handle_plan_feedback _ _ _
  case confirming_rejection.confirm_rejection =>
    cases kw.confirm with
    | none => exact hInv
    | some c =>
      cases c
      · intro h; simp [handle_rejection_confirmation] at h
      · intro _; exact hInv (Or.inr (Or.inr rfl))
  case goals_accepted.goals_completed =>
    intro h; simp at h
  case goals_accepted.goals_failed =>
    intro h; simp at h

/-- C2: Every goal list that the plan-lifecycle state machine accepts
into REVIEWING_GOALS (and keeps while awaiting feedback or confirming a
rejection) passed `validate_plan`, and a validated plan has pairwise
distinct goal ids, no dangling dependency ids, and an acyclic dependency
graph.  The invariant holds initially and is preserved by every event,
so a violating goal list is never held in the REVIEWING_GOALS state. -/
theorem reviewing_goals_plans_validated :
    SMInv initMachine
    ∧ (∀ (m : Machine) (ev : GoalEvent) (kw : EventArgs) (o : SMOracle),
        SMInv m → SMInv (handle_event m ev kw o).1)
    ∧ (∀ gs : List GoalM, validate_plan gs = true →
        (gs.map GoalM.id).Nodup
        ∧ (∀ g ∈ gs, ∀ d ∈ g.dependencies, ∃ h ∈ gs, h.id = d)
        ∧ ¬ HasCycle gs) := by
  refine ⟨?_, smInv_preserved, ?_⟩
  · intro h
    simp [initMachine] at h
  · intro gs hv
    exact ⟨validate_plan_nodup hv, validate_plan_deps_present hv, validate_plan_acyclic hv⟩

/-- A trivial concrete oracle used by the closed witness theorems. -/
def oracleW : SMOracle :=
  { excel := .ok "", gen := fun _ _ => .ok [] }

/-- A concrete machine in the REVIEWING_GOALS state used by witnesses. -/
def machineW : Machine :=
  { state := .reviewing_goals, goals := [], error := none,
    feedback_history := [], original_request := none }

theorem reviewing_goals_plans_validated_witness :
    SMInv (handle_event machineW .review_choice_made { choice := some .modify } oracleW).1
    ∧ ¬ HasCycle [] :=
  ⟨reviewing_goals_plans_validated.2.1 machineW .review_choice_made
      { choice := some .modify } oracleW (by decide),
    (reviewing_goals_plans_validated.2.2 [] (by decide)).2.2⟩

/-- C5: `handle_event` is total (no exception escapes to the caller): it
is a function returning a `Machine × GoalStateResult` by construction,
and whenever the dispatch body raises (`handle_event_core` produces an
`Except.error`), the result is exactly the `_handle_error` outcome — the
same handling the explicit ERROR_OCCURRED event receives — leaving the
machine in the FAILED state with the error message stored. -/
theorem handle_event_never_raises :
    (∀ (m : Machine) (ev : GoalEvent) (kw : EventArgs) (o : SMOracle) (e : String),
        handle_event_core m ev kw o = .error e →
        handle_event m ev kw o = handle_error m e
        ∧ (handle_event m ev kw o).1.state = .failed
        ∧ (handle_event m ev kw o).1.error = some e)
    ∧ (∀ (m : Machine) (kw : EventArgs) (o : SMOracle) (e : String),
        kw.error = some e →
        handle_event m .error_occurred kw o = handle_error m e) := by
  constructor
  · intro m ev kw o e hcore
    refine ⟨?_, ?_, ?_⟩ <;> simp [handle_event, hcore, handle_error]
  · intro m kw o e he
    obtain ⟨st, gs, err, fh, orq⟩ := m
    cases st <;> simp [handle_event, handle_event_core, he]

theorem handle_event_never_raises_witness :
    handle_event initMachine .plan_created {} oracleW
        = handle_error initMachine "'user_request'"
    ∧ (handle_event initMachine .plan_created {} oracleW).1.state = .failed
    ∧ (handle_event initMachine .plan_created {} oracleW).1.error
        = some "'user_request'" :=
  handle_event_never_raises.1 initMachine .plan_created {} oracleW
    "'user_request'" rfl

/-- C10: confirming a rejection (CONFIRM_REJECTION with YES) clears the
feedback history and the original request, returns to CREATING_GOALS,
and the returned transition result carries an empty goal list — but the
machine's stored goal list (what `get_goals` returns) is untouched. -/
theorem confirm_rejection_keeps_stored_goals (m : Machine) (o : SMOracle)
    (hst : m.state = .confirming_rejection) :
    (handle_event m .confirm_rejection { confirm := some .yes } o).1.feedback_history = []
    ∧ (handle_event m .confirm_rejection { confirm := some .yes } o).1.original_request = none
    ∧ (handle_event m .confirm_rejection { confirm := some .yes } o).1.state = .creating_goals
    ∧ (handle_event m .confirm_rejection { confirm := some .yes } o).2.goals = []
    ∧ (handle_event m .confirm_rejection { confirm := some .yes } o).1.goals = m.goals := by
  obtain ⟨st, gs, err, fh, orq⟩ := m
  simp only at hst
  subst hst
  simp [handle_event, handle_event_core, handle_rejection_confirmation]

/-- A concrete machine in CONFIRMING_REJECTION holding a rejected plan,
used by the C10 witness. -/
def machineRejW : Machine :=
  { state := .confirming_rejection,
    goals := [{ id := "g1", description := "rejected goal" }],
    error := none, feedback_history := ["tweak it"],
    original_request := some "add a header" }

theorem confirm_rejection_keeps_stored_goals_witness :
    (handle_event machineRejW .confirm_rejection { confirm := some .yes } oracleW).1.feedback_history = []
    ∧ (handle_event machineRejW .confirm_rejection { confirm := some .yes } oracleW).1.original_request = none
    ∧ (handle_event machineRejW .confirm_rejection { confirm := some .yes } oracleW).1.state = .creating_goals
    ∧ (handle_event machineRejW .confirm_rejection { confirm := some .yes } oracleW).2.goals = []
    ∧ (handle_event machineRejW .confirm_rejection { confirm := some .yes } oracleW).1.goals = machineRejW.goals :=
  confirm_rejection_keeps_stored_goals machineRejW oracleW rfl

/-! ### Feedback accumulation (C7) -/

theorem string_append_assoc (a b c : String) : a ++ b ++ c = a ++ (b ++ c) := by
  apply String.ext
  simp [String.data_append, List.append_assoc]

theorem feedbackFold_two (req A B : String) :
    feedbackFold req 1 [A, B] = req ++ "\nFeedback 1: " ++ A ++ "\nFeedback 2: " ++ B := by
  show req ++ ("\nFeedback " ++ toString (1 : Nat) ++ ": " ++ A)
      ++ ("\nFeedback " ++ toString (2 : Nat) ++ ": " ++ B)
    = req ++ "\nFeedback 1: " ++ A ++ "\nFeedback 2: " ++ B
  have h1 : "\nFeedback " ++ toString (1 : Nat) ++ ": " = "\nFeedback 1: " := by decide
  have h2 : "\nFeedback " ++ toString (2 : Nat) ++ ": " = "\nFeedback 2: " := by decide
  rw [← h1, ← h2]
  simp only [string_append_assoc]

/-- C7: the two-feedback scenario.  Starting from the initial machine:
submit the original request, choose MODIFY, submit feedback `A`, choose
MODIFY again, submit feedback `B`.  The request handed to plan creation
on the second feedback is exactly the original request followed by
"Feedback 1: A" and "Feedback 2: B" in that order (newline-separated);
the machine ends in REVIEWING_GOALS holding the plan generated from that
enhanced request, with feedback history `[A, B]` in submission order and
the original request still stored verbatim. -/
theorem feedback_accumulates
    (req A B st1 st3 st5 : String)
    (o1 o2 o3 o4 o5 : SMOracle)
    (g1 g2 g3 : List GoalM)
    (h1e : o1.excel = .ok st1)
    (h1g : o1.gen req st1 = .ok g1)
    (hv1 : validate_plan g1 = true)
    (h3e : o3.excel = .ok st3)
    (h3g : o3.gen (req ++ "\nFeedback 1: " ++ A) st3 = .ok g2)
    (hv2 : validate_plan g2 = true)
    (h5e : o5.excel = .ok st5)
    (h5g : o5.gen (req ++ "\nFeedback 1: " ++ A ++ "\nFeedback 2: " ++ B) st5 = .ok g3)
    (hv3 : validate_plan g3 = true) :
    (handle_event
      (handle_event
        (handle_event
          (handle_event
            (handle_event initMachine .plan_created { user_request := some req } o1).1
            .review_choice_made { choice := some .modify } o2).1
          .feedback_provided { feedback := some A } o3).1
        .review_choice_made { choice := some .modify } o4).1
      .feedback_provided { feedback := some B } o5).1
    = { state := .reviewing_goals, goals := g3, error := none,
        feedback_history := [A, B], original_request := some req } := by
  have e1 : (handle_event initMachine .plan_created { user_request := some req } o1).1
      = { state := .reviewing_goals, goals := g1, error := none,
          feedback_history := [], original_request := some req } := by
    simp [handle_event, handle_event_core, getKw, handle_plan_creation, h1e, h1g, hv1,
      initMachine]
  rw [e1]
  have e2 : (handle_event
        { state := .reviewing_goals, goals := g1, error := none,
          feedback_history := [], original_request := some req }
        .review_choice_made { choice := some .modify } o2).1
      = { state := .awaiting_feedback, goals := g1, error := none,
          feedback_history := [], original_request := some req } := by
    simp [handle_event, handle_event_core, handle_review_choice]
  rw [e2]
  have hfold1 : feedbackFold req 1 [A] = req ++ "\nFeedback 1: " ++ A := by
    show req ++ ("\nFeedback " ++ toString (1 : Nat) ++ ": " ++ A)
        = req ++ "\nFeedback 1: " ++ A
    have h1 : "\nFeedback " ++ toString (1 : Nat) ++ ": " = "\nFeedback 1: " := by decide
    rw [← h1]
    simp only [string_append_assoc]
  have e3 : (handle_event
        { state := .awaiting_feedback, goals := g1, error := none,
          feedback_history := [], original_request := some req }
        .feedback_provided { feedback := some A } o3).1
      = { state := .reviewing_goals, goals := g2, error := none,
          feedback_history := [A], original_request := some req } := by
    simp [handle_event, handle_event_core, getKw, handle_plan_feedback, h3e, hfold1,
      handle_plan_creation, h3g, hv2]
  rw [e3]
  have e4 : (handle_event
        { state := .reviewing_goals, goals := g2, error := none,
          feedback_history := [A], original_request := some req }
        .review_choice_made { choice := some .modify } o4).1
      = { state := .awaiting_feedback, goals := g2, error := none,
          feedback_history := [A], original_request := some req } := by
    simp [handle_event, handle_event_core, handle_review_choice]
  rw [e4]
  simp [handle_event, handle_event_core, getKw, handle_plan_feedback, h5e,
    feedbackFold_two, handle_plan_creation, h5g, hv3]

/-- Concrete oracle for the C7 witness: the planner always returns the
empty plan (which validates) regardless of the request. -/
def oracleFbW : SMOracle :=
  { excel := .ok "state", gen := fun _ _ => .ok [] }

theorem feedback_accumulates_witness :
    (handle_event
      (handle_event
        (handle_event
          (handle_event
            (handle_event initMachine .plan_created { user_request := some "add a header" } oracleFbW).1
            .review_choice_made { choice := some .modify } oracleFbW).1
          .feedback_provided { feedback := some "make it bold" } oracleFbW).1
        .review_choice_made { choice := some .modify } oracleFbW).1
      .feedback_provided { feedback := some "center it" } oracleFbW).1
    = { state := .reviewing_goals, goals := [], error := none,
        feedback_history := ["make it bold", "center it"],
        original_request := some "add a header" } :=
  feedback_accumulates "add a header" "make it bold" "center it" "state" "state" "state"
    oracleFbW oracleFbW oracleFbW oracleFbW oracleFbW [] [] []
    rfl rfl rfl rfl rfl rfl rfl rfl rfl

/-! ## Step runner

`StepExecutor` from `examples/states/step_executor.py`.  The
accessibility collaborator calls (`raise_application`, and the action
primitives `move_to_element`, `left_click`, ...) are oracles of type
`Except String Unit`: `.error e` models a raised exception with message
`e`.
-/

/-- Python truthiness of a parameter value (`if not element_id`): `None`
is handled separately; `0` and `""` are falsy. -/
def pyFalsyPVal (v : PVal) : Bool :=
  match v with
  | .i n => n == 0
  | .s st => st == ""

/-- `int(element_id)`: succeeds on an integer or an integer-formatted
string, raises `ValueError` otherwise. -/
def pvalToInt : PVal → Option Int
  | .i n => some n
  | .s st => st.toInt?

/-- `StepExecutor._handle_move_to_element`. -/
def handle_move_to_element (collab : Except String Unit) (p : StepParams) :
    Except String Unit :=
  match p.element_id with
  | none => .error "element_id is required for move_to_element"
  | some v =>
    if pyFalsyPVal v then .error "element_id is required for move_to_element"
    else
      match pvalToInt v with
      | none => .error "element_id must be a valid integer"
      | some _ => collab

/-- `StepExecutor._handle_type_text`. -/
def handle_type_text (collab : Except String Unit) (p : StepParams) :
    Except String Unit :=
  match p.text with
  | none => .error "text is required for type_text"
  | some t => if t == "" then .error "text is required for type_text" else collab

/-- `StepExecutor._handle_key_combo`. -/
def handle_key_combo (collab : Except String Unit) (p : StepParams) :
    Except String Unit :=
  match p.key with
  | none => .error "key is required for press_key_combo"
  | some k => if k == "" then .error "key is required for press_key_combo" else collab

/-- `StepExecutor._handle_drag_to_element`. -/
def handle_drag_to_element (collab : Except String Unit) (p : StepParams) :
    Except String Unit :=
  match p.element_id with
  | none => .error "element_id is required for drag_to_element"
  | some v =>
    if pyFalsyPVal v then .error "element_id is required for drag_to_element"
    else
      match pvalToInt v with
      | none => .error "element_id must be a valid integer"
      | some _ => collab

/-- The keys of `StepExecutor.action_handlers`. -/
def handlerNames : List String :=
  ["move_to_element", "left_click", "right_click", "double_left_click",
   "type_text", "press_key_combo", "scroll_up", "scroll_down", "drag_to_element"]

/-- `self.action_handlers.get(step.action)` followed by invoking the
handler on the step's parameters: `none` models a missing handler;
`some r` is the outcome of the handler call (a handler raises
`ValueError` on a missing/malformed required parameter, otherwise the
collaborator primitive's outcome). -/
def dispatch_action (collab : Except String Unit) (action : String) (p : StepParams) :
    Option (Except String Unit) :=
  if action = "move_to_element" then some (handle_move_to_element collab p)
  else if action = "left_click" then some collab
  else if action = "right_click" then some collab
  else if action = "double_left_click" then some collab
  else if action = "type_text" then some (handle_type_text collab p)
  else if action = "press_key_combo" then some (handle_key_combo collab p)
  else if action = "scroll_up" then some collab
  else if action = "scroll_down" then some collab
  else if action = "drag_to_element" then some (handle_drag_to_element collab p)
  else none

/-- The value returned by `StepExecutor.execute_step` — the Python
`(success, error)` pair — together with the mutated step and the
sequence of status assignments performed on it (instrumentation for the
status-monotonicity theorems; each entry is the (previous, new) status
of an assignment). -/
structure StepExecResult where
  step : StepM
  success : Bool
  error : Option String
  trans : List (StepStatus × StepStatus)
deriving DecidableEq, Repr

/-- `StepExecutor.execute_step`: foreground the application (a raised
exception lands in the outer `except`), mark the step started, look up
the handler (a missing handler is a failure, not a crash), run it (a
raised exception lands in the inner `except`), and report
`(success, error)`. -/
def execute_step (raiseApp : Except String Unit) (collab : Except String Unit)
    (step : StepM) : StepExecResult :=
  match raiseApp with
  | .error e =>
    let msg := "Step execution failed: " ++ e
    { step := step.fail msg, success := false, error := some msg,
      trans := [(step.status, .failed)] }
  | .ok _ =>
    let s1 := step.start
    match dispatch_action collab s1.action s1.parameters with
    | none =>
      let msg := "Unknown action: " ++ s1.action
      { step := s1.fail msg, success := false, error := some msg,
        trans := [(step.status, .in_progress), (s1.status, .failed)] }
    | some (.ok _) =>
      { step := s1.complete, success := true, error := none,
        trans := [(step.status, .in_progress), (s1.status, .completed)] }
    | some (.error e) =>
      let msg := "Action execution failed: " ++ e
      { step := s1.fail msg, success := false, error := some msg,
        trans := [(step.status, .in_progress), (s1.status, .failed)] }

theorem dispatch_action_eq_none {c : Except String Unit} {a : String} {p : StepParams}
    (h : a ∉ handlerNames) : dispatch_action c a p = none := by
  simp only [handlerNames, List.mem_cons, List.not_mem_nil, or_false, not_or] at h
  obtain ⟨h1, h2, h3, h4, h5, h6, h7, h8, h9⟩ := h
  simp [dispatch_action, h1, h2, h3, h4, h5, h6, h7, h8, h9]

/-- C8: the step runner converts every failure mode into a
`(false, message)` result instead of letting an exception escape: an
action name outside the handler vocabulary yields a handler-not-found
failure; a raised foregrounding exception and any exception raised by a
handler (missing parameter) or by the automation-primitive collaborator
are caught and reported with a descriptive message; and every
unsuccessful execution carries an error message.  (`execute_step` is a
total function by construction, so no exception escapes.) -/
theorem step_runner_never_raises :
    (∀ (st : StepM) (c : Except String Unit),
        st.action ∉ handlerNames →
        (execute_step (.ok ()) c st).success = false
        ∧ (execute_step (.ok ()) c st).error = some ("Unknown action: " ++ st.action)
        ∧ (execute_step (.ok ()) c st).step.status = .failed)
    ∧ (∀ (st : StepM) (c : Except String Unit) (e : String),
        (execute_step (.error e) c st).success = false
        ∧ (execute_step (.error e) c st).error = some ("Step execution failed: " ++ e)
        ∧ (execute_step (.error e) c st).step.status = .failed)
    ∧ (∀ (st : StepM) (c : Except String Unit) (e : String),
        dispatch_action c st.action st.parameters = some (.error e) →
        (execute_step (.ok ()) c st).success = false
        ∧ (execute_step (.ok ()) c st).error = some ("Action execution failed: " ++ e)
        ∧ (execute_step (.ok ()) c st).step.status = .failed)
    ∧ (∀ (st : StepM) (r c : Except String Unit),
        (execute_step r c st).success = false → (execute_step r c st).error.isSome) := by
  refine ⟨?_, ?_, ?_, ?_⟩
  · intro st c hmem
    have hd := dispatch_action_eq_none (c := c) (p := st.parameters) hmem
    simp [execute_step, StepM.start, hd, StepM.fail]
  · intro st c e
    simp [execute_step, StepM.fail]
  · intro st c e hd
    simp [execute_step, StepM.start, hd, StepM.fail]
  · intro st r c
    cases r with
    | error e => simp [execute_step]
    | ok u =>
      cases hd : dispatch_action c (StepM.start st).action (StepM.start st).parameters with
      | none => simp [execute_step, hd]
      | some res =>
        cases res with
        | ok v => simp [execute_step, hd]
        | error e => simp [execute_step, hd]

theorem step_runner_never_raises_witness :
    ((execute_step (.ok ()) (.ok ())
        { description := "bogus", action := "fly_to_moon", parameters := {} }).success = false
      ∧ (execute_step (.ok ()) (.ok ())
          { description := "bogus", action := "fly_to_moon", parameters := {} }).error
        = some ("Unknown action: " ++ "fly_to_moon")
      ∧ (execute_step (.ok ()) (.ok ())
          { description := "bogus", action := "fly_to_moon", parameters := {} }).step.status = .failed)
    ∧ ((execute_step (.ok ()) (.error "element not found")
        { description := "move", action := "move_to_element",
          parameters := { element_id := some (.i 7) } }).success = false
      ∧ (execute_step (.ok ()) (.error "element not found")
          { description := "move", action := "move_to_element",
            parameters := { element_id := some (.i 7) } }).error
        = some ("Action execution failed: " ++ "element not found")
      ∧ (execute_step (.ok ()) (.error "element not found")
          { description := "move", action := "move_to_element",
            parameters := { element_id := some (.i 7) } }).step.status = .failed) :=
  ⟨step_runner_never_raises.1
      { description := "bogus", action := "fly_to_moon", parameters := {} }
      (.ok ()) (by decide),
    step_runner_never_raises.2.2.1
      { description := "move", action := "move_to_element",
        parameters := { element_id := some (.i 7) } }
      (.error "element not found") "element not found" rfl⟩

/-! ## Goal execution loop

`GoalExecutor` from `examples/states/goal_executor.py`.
-/

/-- One parsed step object from the step-planning LLM response
(`steps_data` in `GoalExecutor.plan_goal_execution`). -/
structure StepData where
  description : String
  action : String
  parameters : StepParams
  validation_criteria : Option String := none
deriving DecidableEq, Repr

/-- The `Step(...)` construction in `plan_goal_execution`: a freshly
planned step starts with the default PENDING status and no error;
`element_keywords` is read out of the parameter mapping. -/
def mkStep (d : StepData) : StepM :=
  { description := d.description, action := d.action, parameters := d.parameters,
    validation_criteria := d.validation_criteria,
    element_keywords := d.parameters.element_keywords }

/-- `GoalExecutor.validate_step_result`: if the step carries no
validation criteria it trivially succeeds, and the source then
unconditionally returns `(True, None)` before the LLM-validation code
below it can run — so validation always succeeds, whatever the
criteria. -/
def validate_step_result (step : StepM) : Bool × Option String :=
  if step.validation_criteria.isNone then (true, none)
  else (true, none)

/-- The observable events of a goal-execution run: observer
notifications (`on_goal_update`, `on_steps_update`, `on_step_failure`),
LLM planning calls, step executions and validations, and every status
assignment made to a step (attempt, step index, previous status, new
status). -/
inductive Ev where
  | goalUpdate (i : Nat) (st : GoalStatus)
  | stepsUpdate (cur : Option Nat)
  | planned (attempt : Nat) (numSteps : Nat)
  | stepTrans (attempt stepIdx : Nat) (old new : StepStatus)
  | stepExec (attempt stepIdx : Nat) (ok : Bool)
  | stepValidate (attempt stepIdx : Nat) (ok : Bool)
  | policyAsk (attempt stepIdx : Nat) (ans : Bool)
deriving DecidableEq, Repr

/-- The goal executor's collaborators, indexed by planning attempt `k`
(incremented on every call to `plan_goal_execution`) and step index:
the step-planning LLM call (which may raise a parse/missing-field
`ValueError`), the state capture at the start of an attempt (which may
raise), the foregrounding and action primitives consumed by
`execute_step`, and the `on_step_failure` replanning decision. -/
structure ExecOracle where
  planResp : Nat → Except String (List StepData)
  cap : Nat → Except String Unit
  raiseApp : Nat → Nat → Except String Unit
  collab : Nat → Nat → Except String Unit
  policy : Nat → Nat → Bool

/-- Outcome of the per-attempt `for step in steps` loop of
`execute_current_goal`: all steps completed, run aborted (failure and
the policy declined a replan), or replan requested (failure and the
policy authorized one). -/
inductive LoopOut where
  | done (steps : List StepM)
  | abort (steps : List StepM)
  | replan (steps : List StepM)
deriving DecidableEq, Repr

/-- The `for step in steps` loop body of
`GoalExecutor.execute_current_goal` (source lines 349–392): mark the
step IN_PROGRESS, notify, execute it, on failure mark FAILED and ask the
failure policy; on success validate (via the `vd` validator, the
`self.validate_step_result` method), on validation failure mark FAILED
and ask the policy, otherwise mark COMPLETED and continue. -/
def runSteps (vd : StepM → Bool × Option String) (o : ExecOracle) (k : Nat) :
    List StepM → Nat → List StepM → LoopOut × List Ev
  | [], _, acc => (.done acc.reverse, [])
  | s :: rest, idx, acc =>
    let s1 : StepM := { s with status := .in_progress }
    let r := execute_step (o.raiseApp k idx) (o.collab k idx) s1
    let tr1 := [Ev.stepTrans k idx s.status .in_progress, Ev.stepsUpdate (some idx)]
      ++ r.trans.map (fun pr => Ev.stepTrans k idx pr.1 pr.2)
      ++ [Ev.stepExec k idx r.success]
    if r.success then
      if (vd r.step).1 then
        let s3 : StepM := { r.step with status := .completed }
        let next := runSteps vd o k rest (idx + 1) (s3 :: acc)
        (next.1, tr1 ++ [Ev.stepValidate k idx true,
          Ev.stepTrans k idx r.step.status .completed, Ev.stepsUpdate (some idx)] ++ next.2)
      else
        let s3 : StepM := { r.step with status := .failed }
        let ans := o.policy k idx
        let tr2 := tr1 ++ [Ev.stepValidate k idx false,
          Ev.stepTrans k idx r.step.status .failed, Ev.stepsUpdate (some idx),
          Ev.policyAsk k idx ans]
        if ans then (.replan (acc.reverse ++ s3 :: rest), tr2)
        else (.abort (acc.reverse ++ s3 :: rest), tr2)
    else
      let s3 : StepM := { r.step with status := .failed }
      let ans := o.policy k idx
      let tr2 := tr1 ++ [Ev.stepTrans k idx r.step.status .failed, Ev.stepsUpdate (some idx),
        Ev.policyAsk k idx ans]
      if ans then (.replan (acc.reverse ++ s3 :: rest), tr2)
      else (.abort (acc.reverse ++ s3 :: rest), tr2)

/-- The goal executor's mutable state: `self.goals` and
`self.current_goal_index`. -/
structure ExecState where
  goals : List GoalM
  currentGoalIndex : Nat
deriving DecidableEq, Repr

/-- `self.goals[i].status = st` (a no-op on an out-of-range index, which
never occurs in the modelled paths). -/
def setGoalStatus (s : ExecState) (i : Nat) (st : GoalStatus) : ExecState :=
  match s.goals.get? i with
  | some g => { s with goals := s.goals.set i { g with status := st } }
  | none => s

/-- Result of `execute_current_goal`: the returned boolean together with
the mutated executor state, the next planning-attempt counter and the
event trace; `exn` models an exception propagating out (after the
`except` clause marked the goal FAILED and re-raised). -/
inductive CRes where
  | ok (success : Bool) (s : ExecState) (nextAttempt : Nat) (tr : List Ev)
  | exn (e : String) (s : ExecState) (tr : List Ev)
deriving DecidableEq, Repr

def prependCRes (tr : List Ev) : Option CRes → Option CRes
  | none => none
  | some (.ok b s k tr2) => some (.ok b s k (tr ++ tr2))
  | some (.exn e s tr2) => some (.exn e s (tr ++ tr2))

/-- `GoalExecutor.execute_current_goal`: take the current goal (an
out-of-range index raises before the `try` block), mark it IN_PROGRESS,
capture state, plan the steps for this attempt, run the step loop; on a
policy-authorized replan recurse with a fresh planning attempt (the old
step list is discarded and execution restarts from the new first step);
on completion mark the goal COMPLETED and advance the index; an
exception marks the goal FAILED and re-raises.  The `rfuel` argument
bounds the replanning recursion (the Python code recurses unboundedly as
long as the policy keeps authorizing replans); `none` means the bound
was exhausted. -/
def execute_current_goal (vd : StepM → Bool × Option String) (o : ExecOracle) :
    Nat → Nat → ExecState → Option CRes
  | 0, _, _ => none
  | rfuel + 1, k, s =>
    match s.goals.get? s.currentGoalIndex with
    | none => some (.exn "IndexError: list index out of range" s [])
    | some _ =>
      let i := s.currentGoalIndex
      let s1 := setGoalStatus s i .in_progress
      let tr0 := [Ev.goalUpdate i .in_progress]
      match o.cap k with
      | .error e =>
        some (.exn e (setGoalStatus s1 i .failed) (tr0 ++ [Ev.goalUpdate i .failed]))
      | .ok _ =>
        match o.planResp k with
        | .error e =>
          some (.exn e (setGoalStatus s1 i .failed) (tr0 ++ [Ev.goalUpdate i .failed]))
        | .ok sdata =>
          let steps := sdata.map mkStep
          let tr1 := tr0 ++ [Ev.planned k steps.length, Ev.stepsUpdate none]
          match runSteps vd o k steps 0 [] with
          | (.done _, tr2) =>
            let s2 := setGoalStatus s1 i .completed
            some (.ok true { s2 with currentGoalIndex := i + 1 } (k + 1)
              (tr1 ++ tr2 ++ [Ev.goalUpdate i .completed]))
          | (.abort _, tr2) => some (.ok false s1 (k + 1) (tr1 ++ tr2))
          | (.replan _, tr2) =>
            prependCRes (tr1 ++ tr2) (execute_current_goal vd o rfuel (k + 1) s1)

/-- Result of `execute_goals` (the run): success flag, final state and
trace, or a propagating exception. -/
inductive GRes where
  | ok (success : Bool) (s : ExecState) (tr : List Ev)
  | exn (e : String) (s : ExecState) (tr : List Ev)
deriving DecidableEq, Repr

/-- `GoalExecutor.execute_goals`:
`while self.current_goal_index < len(self.goals): if not
self.execute_current_goal(): return False; return True`.  `fuel` bounds
the loop (the index strictly increases on success, but an explicit bound
keeps the definition total); `none` means a bound was exhausted. -/
def execute_goals (vd : StepM → Bool × Option String) (o : ExecOracle) :
    Nat → Nat → Nat → ExecState → Option GRes
  | 0, _, _, _ => none
  | fuel + 1, rfuel, k, s =>
    if s.currentGoalIndex < s.goals.length then
      match execute_current_goal vd o rfuel k s with
      | none => none
      | some (.exn e s1 tr1) => some (.exn e s1 tr1)
      | some (.ok false s1 _ tr1) => some (.ok false s1 tr1)
      | some (.ok true s1 k1 tr1) =>
        match execute_goals vd o fuel rfuel k1 s1 with
        | none => none
        | some (.ok b s2 tr2) => some (.ok b s2 (tr1 ++ tr2))
        | some (.exn e s2 tr2) => some (.exn e s2 (tr1 ++ tr2))
    else some (.ok true s [])

/-! ### Goal execution loop theorems -/

theorem setGoalStatus_of_get {s : ExecState} {i : Nat} {g : GoalM}
    (hget : s.goals.get? i = some g) (st : GoalStatus) :
    setGoalStatus s i st = { s with goals := s.goals.set i { g with status := st } } := by
  have hget' : s.goals[i]? = some g := by
    rw [← List.get?_eq_getElem?]
    exact hget
  simp [setGoalStatus, hget']

theorem setGoalStatus_twice {s : ExecState} {i : Nat} {g : GoalM}
    (hget : s.goals.get? i = some g) (st1 st2 : GoalStatus) :
    setGoalStatus (setGoalStatus s i st1) i st2 =
      { s with goals := s.goals.set i { g with status := st2 } } := by
  have hlt : i < s.goals.length := (List.get?_eq_some.mp hget).1
  rw [setGoalStatus_of_get hget st1]
  have hget2 : (s.goals.set i { g with status := st1 })[i]? = some { g with status := st1 } :=
    List.getElem?_set_eq_of_lt _ (by simpa using hlt)
  simp only [setGoalStatus, List.get?_eq_getElem?, hget2]
  simp [List.set_set]

/-- C9 (confirmed): if the step planner returns an empty step list for
the current goal, the execution loop executes no step (the trace carries
no step events at all), marks the goal COMPLETED, advances the goal
cursor, and reports success for that goal. -/
theorem empty_plan_completes_goal (vd : StepM → Bool × Option String) (o : ExecOracle)
    (rfuel k : Nat) (s : ExecState) (g : GoalM)
    (hget : s.goals.get? s.currentGoalIndex = some g)
    (hcap : o.cap k = .ok ()) (hplan : o.planResp k = .ok []) :
    execute_current_goal vd o (rfuel + 1) k s =
      some (.ok true
        { goals := s.goals.set s.currentGoalIndex { g with status := .completed },
          currentGoalIndex := s.currentGoalIndex + 1 }
        (k + 1)
        [Ev.goalUpdate s.currentGoalIndex .in_progress, Ev.planned k 0,
         Ev.stepsUpdate none, Ev.goalUpdate s.currentGoalIndex .completed])
    ∧ (∀ a j b, Ev.stepExec a j b ∉
        [Ev.goalUpdate s.currentGoalIndex GoalStatus.in_progress, Ev.planned k 0,
         Ev.stepsUpdate none, Ev.goalUpdate s.currentGoalIndex GoalStatus.completed]) := by
  constructor
  · simp only [execute_current_goal, hget, hcap, hplan, List.map_nil, runSteps]
    rw [setGoalStatus_twice hget .in_progress .completed]
    simp [setGoalStatus_of_get hget]
  · intro a j b
    simp

/-- Concrete inputs for the C9 witness: one PENDING goal, an empty step
plan. -/
def oracleEmptyPlan : ExecOracle :=
  { planResp := fun _ => .ok [], cap := fun _ => .ok (),
    raiseApp := fun _ _ => .ok (), collab := fun _ _ => .ok (),
    policy := fun _ _ => false }

def goalW : GoalM := { id := "g1", description := "enter the header" }

def stateW : ExecState := { goals := [goalW], currentGoalIndex := 0 }

theorem empty_plan_completes_goal_witness :
    execute_current_goal validate_step_result oracleEmptyPlan 1 0 stateW =
      some (.ok true
        { goals := [goalW].set 0 { goalW with status := .completed },
          currentGoalIndex := 0 + 1 }
        (0 + 1)
        [Ev.goalUpdate 0 .in_progress, Ev.planned 0 0,
         Ev.stepsUpdate none, Ev.goalUpdate 0 .completed]) :=
  (empty_plan_completes_goal validate_step_result oracleEmptyPlan 0 0 stateW goalW
    rfl rfl rfl).1

/-- Success flag of a finished run. -/
def gresSuccess : Option GRes → Option Bool
  | some (.ok b _ _) => some b
  | _ => none

/-- Goal statuses of the final state of a run. -/
def gresGoalStatuses : Option GRes → List GoalStatus
  | some (.ok _ s _) => s.goals.map GoalM.status
  | some (.exn _ s _) => s.goals.map GoalM.status
  | none => []

/-- Event trace of a finished run. -/
def gresTrace : Option GRes → List Ev
  | some (.ok _ _ tr) => tr
  | some (.exn _ _ tr) => tr
  | none => []

/-- C3 (amended): the run performs no actions and returns true exactly
when the goal cursor is at or past the end of the goal list (which is
the executor's state after a completed run); the loop never consults
goal statuses. -/
theorem run_with_cursor_at_end_no_actions (vd : StepM → Bool × Option String)
    (o : ExecOracle) (fuel rfuel k : Nat) (s : ExecState)
    (hidx : s.goals.length ≤ s.currentGoalIndex) :
    execute_goals vd o (fuel + 1) rfuel k s = some (.ok true s []) := by
  have hnot : ¬ (s.currentGoalIndex < s.goals.length) := Nat.not_lt.mpr hidx
  simp [execute_goals, hnot]

/-- Executor state after a finished run over one completed goal: cursor
past the end. -/
def stateDoneW : ExecState :=
  { goals := [{ goalW with status := .completed }], currentGoalIndex := 1 }

theorem run_with_cursor_at_end_no_actions_witness :
    execute_goals validate_step_result oracleEmptyPlan 1 1 0 stateDoneW =
      some (.ok true stateDoneW []) :=
  run_with_cursor_at_end_no_actions validate_step_result oracleEmptyPlan 0 1 0 stateDoneW
    (by decide)

/-- A freshly constructed executor over an already-COMPLETED goal list:
the cursor starts at 0. -/
def stateCompletedW : ExecState :=
  { goals := [{ goalW with status := .completed }], currentGoalIndex := 0 }

/-- C3 counterexample: invoking the run on a goal list in which every
goal is already COMPLETED, with a fresh executor (cursor 0), does return
true but does not perform "no actions": it makes a planning call and
mutates the goal's status (COMPLETED → IN_PROGRESS → COMPLETED), because
the loop is driven by the cursor alone and never checks for COMPLETED
statuses. -/
theorem run_on_completed_list_not_inert :
    gresSuccess (execute_goals validate_step_result oracleEmptyPlan 2 1 0 stateCompletedW)
      = some true
    ∧ Ev.planned 0 0 ∈
        gresTrace (execute_goals validate_step_result oracleEmptyPlan 2 1 0 stateCompletedW)
    ∧ Ev.goalUpdate 0 .in_progress ∈
        gresTrace (execute_goals validate_step_result oracleEmptyPlan 2 1 0 stateCompletedW) := by
  refine ⟨rfl, ?_, ?_⟩ <;> decide

/-- C1 (amended): when a step of the current goal fails (execution or
validation) the failure policy is consulted; if it authorizes a replan,
the goal's current step list is discarded and `execute_current_goal`
restarts with a freshly planned attempt (`k + 1`) from its first step;
if it declines, the call returns false with the goal cursor unchanged —
and the goal's status remains IN_PROGRESS (not FAILED; the goal is set
to FAILED only when an exception escapes the attempt). -/
theorem step_failure_policy_routing (o : ExecOracle) (rfuel k : Nat) (s : ExecState)
    (g : GoalM) (sd : List StepData) (steps' : List StepM) (tr2 : List Ev)
    (hget : s.goals.get? s.currentGoalIndex = some g)
    (hcap : o.cap k = .ok ()) (hplan : o.planResp k = .ok sd) :
    (runSteps validate_step_result o k (sd.map mkStep) 0 [] = (.abort steps', tr2) →
      execute_current_goal validate_step_result o (rfuel + 1) k s =
        some (.ok false (setGoalStatus s s.currentGoalIndex .in_progress) (k + 1)
          ([Ev.goalUpdate s.currentGoalIndex .in_progress,
            Ev.planned k (sd.map mkStep).length, Ev.stepsUpdate none] ++ tr2))
      ∧ (setGoalStatus s s.currentGoalIndex .in_progress).currentGoalIndex
          = s.currentGoalIndex
      ∧ (setGoalStatus s s.currentGoalIndex .in_progress).goals.get? s.currentGoalIndex
          = some { g with status := .in_progress })
    ∧ (runSteps validate_step_result o k (sd.map mkStep) 0 [] = (.replan steps', tr2) →
      execute_current_goal validate_step_result o (rfuel + 1) k s =
        prependCRes
          ([Ev.goalUpdate s.currentGoalIndex .in_progress,
            Ev.planned k (sd.map mkStep).length, Ev.stepsUpdate none] ++ tr2)
          (execute_current_goal validate_step_result o rfuel (k + 1)
            (setGoalStatus s s.currentGoalIndex .in_progress))) := by
  have hlt : s.currentGoalIndex < s.goals.length := (List.get?_eq_some.mp hget).1
  constructor
  · intro habort
    refine ⟨?_, ?_, ?_⟩
    · simp only [execute_current_goal, hget, hcap, hplan, habort]
      simp
    · rw [setGoalStatus_of_get hget]
    · rw [setGoalStatus_of_get hget]
      simp only [List.get?_eq_getElem?]
      exact List.getElem?_set_eq_of_lt _ (by simpa using hlt)
  · intro hreplan
    simp only [execute_current_goal, hget, hcap, hplan, hreplan]
    simp

/-- A planned step whose primitive action will fail. -/
def stepDataW : StepData :=
  { description := "move to A1", action := "move_to_element",
    parameters := { element_id := some (.i 3) } }

/-- Oracle for a failing step with a policy that declines replanning:
the collaborator raises "element not found" and `on_step_failure`
answers false. -/
def oracleStepFails : ExecOracle :=
  { planResp := fun _ => .ok [stepDataW], cap := fun _ => .ok (),
    raiseApp := fun _ _ => .ok (), collab := fun _ _ => .error "element not found",
    policy := fun _ _ => false }

/-- The failed step as left by the aborted attempt. -/
def failedStepW : StepM :=
  { description := "move to A1", action := "move_to_element",
    parameters := { element_id := some (.i 3) }, status := .failed,
    error_message := some "Action execution failed: element not found" }

/-- The step-loop trace of the aborted attempt. -/
def trFailW : List Ev :=
  [Ev.stepTrans 0 0 .pending .in_progress, Ev.stepsUpdate (some 0),
   Ev.stepTrans 0 0 .in_progress .in_progress, Ev.stepTrans 0 0 .in_progress .failed,
   Ev.stepExec 0 0 false, Ev.stepTrans 0 0 .failed .failed, Ev.stepsUpdate (some 0),
   Ev.policyAsk 0 0 false]

theorem step_failure_policy_routing_witness :
    (setGoalStatus stateW 0 .in_progress).currentGoalIndex = 0
    ∧ (setGoalStatus stateW 0 .in_progress).goals.get? 0
        = some { goalW with status := .in_progress } :=
  ⟨((step_failure_policy_routing oracleStepFails 0 0 stateW goalW [stepDataW]
        [failedStepW] trFailW rfl rfl rfl).1 rfl).2.1,
    ((step_failure_policy_routing oracleStepFails 0 0 stateW goalW [stepDataW]
        [failedStepW] trFailW rfl rfl rfl).1 rfl).2.2⟩

/-- C1 counterexample: with the concrete failing step above and a
policy answering false, the run returns false but the goal's status is
left IN_PROGRESS, not FAILED — refuting the claim's "goal status is
FAILED" clause (the spec's own §8 scenario agrees with the code here). -/
theorem run_false_goal_not_failed :
    gresSuccess (execute_goals validate_step_result oracleStepFails 2 1 0 stateW)
      = some false
    ∧ gresGoalStatuses (execute_goals validate_step_result oracleStepFails 2 1 0 stateW)
        = [GoalStatus.in_progress]
    ∧ GoalStatus.in_progress ≠ GoalStatus.failed := by
  refine ⟨rfl, rfl, by decide⟩

theorem validate_step_result_true (s : StepM) : validate_step_result s = (true, none) := by
  simp [validate_step_result]

theorem execute_step_success_status (r c : Except String Unit) (st : StepM)
    (h : (execute_step r c st).success = true) :
    (execute_step r c st).step.status = .completed := by
  cases r with
  | error e => simp [execute_step] at h
  | ok u =>
    cases hd : dispatch_action c st.action st.parameters with
    | none => simp [execute_step, StepM.start, StepM.fail, hd] at h
    | some res =>
      cases res with
      | ok v => simp [execute_step, StepM.start, StepM.complete, hd]
      | error e => simp [execute_step, StepM.start, StepM.fail, hd] at h

theorem execute_step_failure_status (r c : Except String Unit) (st : StepM)
    (h : (execute_step r c st).success = false) :
    (execute_step r c st).step.status = .failed := by
  cases r with
  | error e => simp [execute_step, StepM.fail]
  | ok u =>
    cases hd : dispatch_action c st.action st.parameters with
    | none => simp [execute_step, StepM.start, StepM.fail, hd]
    | some res =>
      cases res with
      | ok v => simp [execute_step, StepM.start, StepM.complete, hd] at h
      | error e => simp [execute_step, StepM.start, StepM.fail, hd]

/-- Statuses of the step list carried by a step-loop outcome. -/
def loopOutStatuses : LoopOut → List StepStatus
  | .done stps => stps.map StepM.status
  | .abort stps => stps.map StepM.status
  | .replan stps => stps.map StepM.status

/-- C4 (amended): a step whose execution succeeds but whose post-action
validation reports failure is marked FAILED — the same status as an
execution failure, not VALIDATION_FAILED — and the failure policy is
then consulted, authorizing either a replan or an abort exactly as for
an execution failure.  Moreover the code's own `validate_step_result`
never reports failure, so with the shipped validator the branch is
unreachable. -/
theorem validation_failure_marks_failed (vd : StepM → Bool × Option String)
    (o : ExecOracle) (k idx : Nat) (st : StepM) (rest acc : List StepM)
    (hexec : (execute_step (o.raiseApp k idx) (o.collab k idx)
        { st with status := .in_progress }).success = true)
    (hval : (vd (execute_step (o.raiseApp k idx) (o.collab k idx)
        { st with status := .in_progress }).step).1 = false) :
    (Ev.stepValidate k idx false ∈ (runSteps vd o k (st :: rest) idx acc).2)
    ∧ (Ev.stepTrans k idx .completed .failed ∈ (runSteps vd o k (st :: rest) idx acc).2)
    ∧ (Ev.policyAsk k idx (o.policy k idx) ∈ (runSteps vd o k (st :: rest) idx acc).2)
    ∧ ((runSteps vd o k (st :: rest) idx acc).1 =
        if o.policy k idx then
          LoopOut.replan (acc.reverse ++
            { (execute_step (o.raiseApp k idx) (o.collab k idx)
                { st with status := .in_progress }).step with status := .failed } :: rest)
        else
          LoopOut.abort (acc.reverse ++
            { (execute_step (o.raiseApp k idx) (o.collab k idx)
                { st with status := .in_progress }).step with status := .failed } :: rest))
    ∧ (∀ s2 : StepM, validate_step_result s2 = (true, none)) := by
  have hcompl := execute_step_success_status _ _ _ hexec
  cases hpol : o.policy k idx <;>
    refine ⟨?_, ?_, ?_, ?_, validate_step_result_true⟩ <;>
      simp [runSteps, hexec, hval, hpol, hcompl]

/-- Oracle for a step that executes successfully. -/
def oracleStepOk : ExecOracle :=
  { planResp := fun _ => .ok [stepDataW], cap := fun _ => .ok (),
    raiseApp := fun _ _ => .ok (), collab := fun _ _ => .ok (),
    policy := fun _ _ => false }

/-- A validator that reports failure, modelling the configurable
§4.3.1 validation verdict. -/
def vdFailW : StepM → Bool × Option String := fun _ => (false, some "criteria not met")

theorem validation_failure_marks_failed_witness :
    Ev.stepValidate 0 0 false
      ∈ (runSteps vdFailW oracleStepOk 0 [mkStep stepDataW] 0 []).2
    ∧ Ev.stepTrans 0 0 .completed .failed
      ∈ (runSteps vdFailW oracleStepOk 0 [mkStep stepDataW] 0 []).2 :=
  ⟨(validation_failure_marks_failed vdFailW oracleStepOk 0 0 (mkStep stepDataW) [] []
      rfl rfl).1,
    (validation_failure_marks_failed vdFailW oracleStepOk 0 0 (mkStep stepDataW) [] []
      rfl rfl).2.1⟩

/-- C4 counterexample: in a concrete run in which the step executes
successfully and validation then fails, the loop leaves the step with
status FAILED — never VALIDATION_FAILED: the trace records the
COMPLETED → FAILED assignment of source line 382 and contains no
assignment of VALIDATION_FAILED. -/
theorem validation_failure_status_is_failed :
    loopOutStatuses (runSteps vdFailW oracleStepOk 0 [mkStep stepDataW] 0 []).1
      = [StepStatus.failed]
    ∧ Ev.stepValidate 0 0 false
        ∈ (runSteps vdFailW oracleStepOk 0 [mkStep stepDataW] 0 []).2
    ∧ (runSteps vdFailW oracleStepOk 0 [mkStep stepDataW] 0 []).2.countP
        (fun e => match e with | Ev.stepTrans _ _ _ new => new == .validation_failed | _ => false)
        = 0
    ∧ StepStatus.failed ≠ StepStatus.validation_failed := by
  refine ⟨rfl, by decide, by decide, by decide⟩

/-- The status assignments permitted within one execution attempt:
PENDING → IN_PROGRESS → {COMPLETED, FAILED}, plus the stuttering
re-assignments the loop performs (re-marking an IN_PROGRESS, COMPLETED
or FAILED step with the same status).  No assignment ever moves a step
backwards, jumps from PENDING to a terminal status, or assigns
VALIDATION_FAILED. -/
def allowedTrans (old new : StepStatus) : Prop :=
  (old = .pending ∧ new = .in_progress)
  ∨ (old = .in_progress ∧ (new = .in_progress ∨ new = .completed ∨ new = .failed))
  ∨ (old = .failed ∧ new = .failed)
  ∨ (old = .completed ∧ new = .completed)

instance (old new : StepStatus) : Decidable (allowedTrans old new) := by
  unfold allowedTrans
  infer_instance

/-- An event respects the allowed status assignments (vacuous for
non-assignment events). -/
def evTransAllowed : Ev → Prop
  | .stepTrans _ _ old new => allowedTrans old new
  | _ => True

theorem execute_step_trans_allowed (r c : Except String Unit) (st : StepM)
    (h : st.status = .in_progress) :
    ∀ pr ∈ (execute_step r c st).trans, allowedTrans pr.1 pr.2 := by
  intro pr hpr
  cases r with
  | error e =>
    simp [execute_step] at hpr
    subst hpr
    simp [allowedTrans, h]
  | ok u =>
    cases hd : dispatch_action c st.action st.parameters with
    | none =>
      simp [execute_step, StepM.start, hd] at hpr
      rcases hpr with rfl | rfl <;> simp [allowedTrans, h]
    | some res =>
      cases res with
      | ok v =>
        simp [execute_step, StepM.start, hd] at hpr
        rcases hpr with rfl | rfl <;> simp [allowedTrans, h]
      | error e =>
        simp [execute_step, StepM.start, hd] at hpr
        rcases hpr with rfl | rfl <;> simp [allowedTrans, h]

theorem runSteps_trans_allowed (o : ExecOracle) (k : Nat) :
    ∀ (steps : List StepM) (idx : Nat) (acc : List StepM),
      (∀ st ∈ steps, st.status = .pending) →
      ∀ e ∈ (runSteps validate_step_result o k steps idx acc).2, evTransAllowed e := by
  intro steps
  induction steps with
  | nil =>
    intro idx acc _ e he
    simp [runSteps] at he
  | cons s rest ih =>
    intro idx acc hpend e he
    have hs : s.status = .pending := hpend s (List.mem_cons_self s rest)
    have hrest : ∀ st ∈ rest, st.status = .pending :=
      fun st hst => hpend st (List.mem_cons_of_mem s hst)
    have hallow := execute_step_trans_allowed (o.raiseApp k idx) (o.collab k idx)
      { s with status := .in_progress } rfl
    cases hsucc : (execute_step (o.raiseApp k idx) (o.collab k idx)
        { s with status := .in_progress }).success with
    | true =>
      have hcompl := execute_step_success_status _ _ _ hsucc
      simp only [runSteps, hsucc, validate_step_result_true, if_true] at he
      simp only [List.append_assoc, List.cons_append, List.nil_append, List.mem_append,
        List.mem_cons, List.mem_map, List.not_mem_nil, or_false, or_assoc] at he
      rcases he with rfl | rfl | ⟨pr, hpr, rfl⟩ | rfl | rfl | rfl | rfl | hrec
      · simp [evTransAllowed, allowedTrans, hs]
      · simp [evTransAllowed]
      · simpa [evTransAllowed] using hallow pr hpr
      · simp [evTransAllowed]
      · simp [evTransAllowed]
      · simp [evTransAllowed, allowedTrans, hcompl]
      · simp [evTransAllowed]
      · exact ih (idx + 1) _ hrest e hrec
    | false =>
      have hfail := execute_step_failure_status _ _ _ hsucc
      cases hpol : o.policy k idx with
      | true =>
        simp only [runSteps, hsucc, hpol, Bool.false_eq_true, if_false, if_true] at he
        simp only [List.append_assoc, List.cons_append, List.nil_append, List.mem_append,
          List.mem_cons, List.mem_map, List.not_mem_nil, or_false, or_assoc] at he
        rcases he with rfl | rfl | ⟨pr, hpr, rfl⟩ | rfl | rfl | rfl | rfl
        · simp [evTransAllowed, allowedTrans, hs]
        · simp [evTransAllowed]
        · simpa [evTransAllowed] using hallow pr hpr
        · simp [evTransAllowed]
        · simp [evTransAllowed, allowedTrans, hfail]
        · simp [evTransAllowed]
        · simp [evTransAllowed]
      | false =>
        simp only [runSteps, hsucc, hpol, Bool.false_eq_true, if_false] at he
        simp only [List.append_assoc, List.cons_append, List.nil_append, List.mem_append,
          List.mem_cons, List.mem_map, List.not_mem_nil, or_false, or_assoc] at he
        rcases he with rfl | rfl | ⟨pr, hpr, rfl⟩ | rfl | rfl | rfl | rfl
        · simp [evTransAllowed, allowedTrans, hs]
        · simp [evTransAllowed]
        · simpa [evTransAllowed] using hallow pr hpr
        · simp [evTransAllowed]
        · simp [evTransAllowed, allowedTrans, hfail]
        · simp [evTransAllowed]
        · simp [evTransAllowed]

/-- C6: within one execution attempt of the goal loop (running over a
freshly planned step list, whose steps all start PENDING, with the
code's own validator), every status assignment recorded for a step is
monotonic along PENDING → IN_PROGRESS → {COMPLETED, FAILED} (with
stutters): in particular no step ever moves from PENDING directly to a
terminal status, no terminal step is ever reset for a retry, and
VALIDATION_FAILED is never assigned.  Freshly planned steps (the
`Step(...)` construction of `plan_goal_execution`) always start PENDING,
so a replanned attempt runs over brand-new PENDING steps rather than
mutating the failed ones. -/
theorem step_status_monotonic :
    (∀ (o : ExecOracle) (k : Nat) (steps : List StepM) (idx : Nat) (acc : List StepM),
      (∀ st ∈ steps, st.status = .pending) →
      ∀ a j old new,
        Ev.stepTrans a j old new ∈ (runSteps validate_step_result o k steps idx acc).2 →
        allowedTrans old new)
    ∧ (∀ d : StepData, (mkStep d).status = .pending) := by
  constructor
  · intro o k steps idx acc hp a j old new hmem
    have := runSteps_trans_allowed o k steps idx acc hp _ hmem
    simpa [evTransAllowed] using this
  · intro d
    rfl

theorem step_status_monotonic_witness :
    allowedTrans .pending .in_progress ∧ (mkStep stepDataW).status = .pending :=
  ⟨step_status_monotonic.1 oracleStepFails 0 [mkStep stepDataW] 0 []
      (by decide) 0 0 .pending .in_progress (by decide),
    step_status_monotonic.2 stepDataW⟩
